import Mathlib

/-!
# GithubSearch.jsx

A shallow embedding of `src/githubAccountFinder/src/components/GithubSearch.jsx`:
the component state of `GithubSearch`, the asynchronous handler
`fetchUserProfile` (split at its single `await`), the key handler
`handleKeyPress`, the renderer `ProfileCard` and the helper `formatDate`.
-/

namespace GithubSearch

/-! ## JavaScript values read from the JSON record -/

/-- A property of the JSON record as JavaScript reads it: missing (`undefined`),
`null`, or a value. -/
inductive Field (α : Type) where
  | absent : Field α
  | null : Field α
  | val (a : α) : Field α
  deriving DecidableEq, Repr

/-- JavaScript truthiness of a string-valued property: `undefined`, `null` and
the empty string are falsy, every other string is truthy. -/
def truthy : Field String → Bool
  | .val s => !s.data.isEmpty
  | _ => false

/-- The expression `x || fallback` for a string-valued property `x`. -/
def orElse (x : Field String) (fallback : String) : String :=
  match x with
  | .val s => if truthy x then s else fallback
  | _ => fallback

/-- The expression `x ?? fallback` for a number-valued property `x`: only
`undefined` and `null` are replaced. -/
def nullish (x : Field Int) (fallback : Int) : Int :=
  match x with
  | .val n => n
  | _ => fallback

/-- The record returned by `GET /users/{username}`; any property may be missing
or `null`. -/
structure ProfileRecord where
  name : Field String
  login : Field String
  avatar_url : Field String
  created_at : Field String
  location : Field String
  public_repos : Field Int
  followers : Field Int
  following : Field Int
  twitter_username : Field String
  company : Field String
  blog : Field String
  html_url : Field String
  deriving DecidableEq, Repr

/-! ## `String.prototype.trim` -/

/-- The code points that `trim` strips: ECMAScript WhiteSpace and
LineTerminator. -/
def isTrimChar (c : Char) : Bool :=
  let n := c.toNat
  n == 0x09 || n == 0x0A || n == 0x0B || n == 0x0C || n == 0x0D || n == 0x20 ||
  n == 0xA0 || n == 0x1680 || (0x2000 ≤ n && n ≤ 0x200A) || n == 0x2028 ||
  n == 0x2029 || n == 0x202F || n == 0x205F || n == 0x3000 || n == 0xFEFF

/-- The list-level `trim`: strip the leading run, then the trailing run. -/
def trimChars (cs : List Char) : List Char :=
  ((cs.dropWhile isTrimChar).reverse.dropWhile isTrimChar).reverse

/-- The method `s.trim()`. -/
def trim (s : String) : String := ⟨trimChars s.data⟩

/-- The test `!s` for a string `s`: true exactly for the empty string. -/
def falsyStr (s : String) : Bool := s.data.isEmpty

/-! ## The built-in `Date`

`formatDate` relies on two built-ins of the host: the constructor
`new Date(dateString)` and `Date.prototype.toLocaleDateString`. They are
modelled after the ECMAScript definitions of time values (milliseconds since
1970-01-01T00:00:00Z, proleptic Gregorian calendar). What ECMAScript leaves to
the host is a parameter: the local time zone, and the parsing of strings that
are not in the date-time format named in the comment above `formatDate`. -/

/-- The host-defined parts of `Date`. -/
structure Host where
  /-- The offset of local time from UTC, in milliseconds, at a UTC time value. -/
  localTZA : Int → Int
  /-- The result of `Date.parse` on a string that is not of the form
  `YYYY-MM-DDTHH:MM:SSZ`; `none` stands for `NaN`. -/
  parseOther : String → Option Int

def msPerDay : Int := 86400000

/-- Number of days in year `y`. -/
def DaysInYear (y : Int) : Int :=
  if y % 4 ≠ 0 then 365
  else if y % 100 ≠ 0 then 366
  else if y % 400 ≠ 0 then 365
  else 366

/-- Day number of the first day of year `y`. -/
def DayFromYear (y : Int) : Int :=
  365 * (y - 1970) + (y - 1969) / 4 - (y - 1901) / 100 + (y - 1601) / 400

/-- The value 1 in a leap year and 0 otherwise. -/
def InLeapYear (y : Int) : Int := if DaysInYear y = 366 then 1 else 0

/-- Day number of a time value: `floor(t / msPerDay)`. -/
def Day (t : Int) : Int := t / msPerDay

/-- The year containing day number `day`: the largest `y` with
`DayFromYear y ≤ day`, computed by counting whole 400-, 100-, 4- and 1-year
cycles since 1601-01-01 (day number -134774). -/
def YearFromDay (day : Int) : Int :=
  let z := day + 134774
  let n400 := z / 146097
  let r := z % 146097
  let n100 := min (r / 36524) 3
  let r1 := r - 36524 * n100
  let n4 := r1 / 1461
  let r2 := r1 % 1461
  let n1 := min (r2 / 365) 3
  1601 + 400 * n400 + 100 * n100 + 4 * n4 + n1

def YearFromTime (t : Int) : Int := YearFromDay (Day t)

def DayWithinYear (t : Int) : Int := Day t - DayFromYear (YearFromTime t)

/-- Day within the year on which month `m` (0 = January) starts; `leap` is
`InLeapYear`. -/
def monthStart (m leap : Int) : Int :=
  if m = 0 then 0
  else if m = 1 then 31
  else if m = 2 then 59 + leap
  else if m = 3 then 90 + leap
  else if m = 4 then 120 + leap
  else if m = 5 then 151 + leap
  else if m = 6 then 181 + leap
  else if m = 7 then 212 + leap
  else if m = 8 then 243 + leap
  else if m = 9 then 273 + leap
  else if m = 10 then 304 + leap
  else 334 + leap

/-- Month number (0 = January) of a time value. -/
def MonthFromTime (t : Int) : Int :=
  let d := DayWithinYear t
  let leap := InLeapYear (YearFromTime t)
  if d < 31 then 0
  else if d < 59 + leap then 1
  else if d < 90 + leap then 2
  else if d < 120 + leap then 3
  else if d < 151 + leap then 4
  else if d < 181 + leap then 5
  else if d < 212 + leap then 6
  else if d < 243 + leap then 7
  else if d < 273 + leap then 8
  else if d < 304 + leap then 9
  else if d < 334 + leap then 10
  else 11

/-- Day of the month (1-based) of a time value. -/
def DateFromTime (t : Int) : Int :=
  DayWithinYear t - monthStart (MonthFromTime t) (InLeapYear (YearFromTime t)) + 1

/-- The operation `MakeDay(year, month, date)` with `month` counted from 0. -/
def MakeDay (year month date : Int) : Int :=
  let ym := year + month / 12
  let mn := month % 12
  DayFromYear ym + monthStart mn (InLeapYear ym) + date - 1

/-- The operation `MakeTime(hour, min, sec, 0)`. -/
def MakeTime (hour min sec : Int) : Int :=
  hour * 3600000 + min * 60000 + sec * 1000

/-- The operation `MakeDate(day, time)`. -/
def MakeDate (day time : Int) : Int := day * msPerDay + time

/-- The numeric elements of a string `YYYY-MM-DDTHH:MM:SSZ`. -/
structure Timestamp where
  year : Nat
  month : Nat
  day : Nat
  hour : Nat
  minute : Nat
  second : Nat
  deriving DecidableEq, Repr

/-- Value of a decimal digit. -/
def digit (c : Char) : Option Nat :=
  if 48 ≤ c.toNat ∧ c.toNat ≤ 57 then some (c.toNat - 48) else none

/-- Value of two decimal digits. -/
def twoDigits (a b : Char) : Option Nat := do
  let x ← digit a
  let y ← digit b
  pure (10 * x + y)

/-- Read a string of the exact shape `YYYY-MM-DDTHH:MM:SSZ`. -/
def parseTimestamp (s : String) : Option Timestamp :=
  match s.data with
  | [y1, y2, y3, y4, c1, m1, m2, c2, d1, d2, c3, h1, h2, c4, n1, n2, c5, s1, s2, c6] =>
    if c1 = '-' ∧ c2 = '-' ∧ c3 = 'T' ∧ c4 = ':' ∧ c5 = ':' ∧ c6 = 'Z' then do
      let yh ← twoDigits y1 y2
      let yl ← twoDigits y3 y4
      let mo ← twoDigits m1 m2
      let dd ← twoDigits d1 d2
      let hh ← twoDigits h1 h2
      let mi ← twoDigits n1 n2
      let ss ← twoDigits s1 s2
      pure { year := 100 * yh + yl, month := mo, day := dd, hour := hh, minute := mi,
             second := ss }
    else none
  | _ => none

/-- The element ranges of the date-time string format: month 01-12, day 01-31,
hour 00-24 (24 only as `24:00:00`), minute and second 00-59. -/
def legalElements (t : Timestamp) : Bool :=
  decide (1 ≤ t.month ∧ t.month ≤ 12 ∧ 1 ≤ t.day ∧ t.day ≤ 31 ∧ t.minute ≤ 59 ∧
    t.second ≤ 59 ∧ (t.hour ≤ 23 ∨ (t.hour = 24 ∧ t.minute = 0 ∧ t.second = 0)))

/-- The UTC time value denoted by the elements of a timestamp. -/
def timeValue (t : Timestamp) : Int :=
  MakeDate (MakeDay t.year ((t.month : Int) - 1) t.day) (MakeTime t.hour t.minute t.second)

/-- The constructor `new Date(dateString)`: the time value of the date, `none`
for an invalid date. -/
def newDate (host : Host) (dateString : String) : Option Int :=
  match parseTimestamp dateString with
  | some t => if legalElements t then some (timeValue t) else none
  | none => host.parseOther dateString

/-- The year as the `en-US` format writes it: the year of the era, without the
era. Year 0 is 1 BC and is written `1`, year -1 is 2 BC and is written `2`. -/
def eraYear (y : Int) : Int := if y ≤ 0 then 1 - y else y

/-- The call `date.toLocaleDateString('en-US', { month: 'numeric', day:
'numeric', year: 'numeric' })`: the calendar date of the local time, written
`M/D/YYYY`, the year being the year of the era. -/
def toLocaleDateString (host : Host) (date : Option Int) : String :=
  match date with
  | none => "Invalid Date"
  | some tv =>
    let t := tv + host.localTZA tv
    toString (MonthFromTime t + 1) ++ "/" ++ toString (DateFromTime t) ++ "/" ++
      toString (eraYear (YearFromTime t))

/-- Lines 6-14: `formatDate`. -/
def formatDate (host : Host) (dateString : Field String) : String :=
  match dateString with
  | .val s => if falsyStr s then "N/A" else toLocaleDateString host (newDate host s)
  | _ => "N/A"

/-- Days in month `m` (1 = January) of year `y`. -/
def daysInMonth (y : Int) (m : Nat) : Nat :=
  if m = 2 then (if DaysInYear y = 366 then 29 else 28)
  else if m = 4 ∨ m = 6 ∨ m = 9 ∨ m = 11 then 30
  else 31

/-- A timestamp that names a calendar date and a time of day. -/
def Timestamp.valid (t : Timestamp) : Prop :=
  1 ≤ t.month ∧ t.month ≤ 12 ∧ 1 ≤ t.day ∧ t.day ≤ daysInMonth t.year t.month ∧
  t.hour ≤ 23 ∧ t.minute ≤ 59 ∧ t.second ≤ 59

instance (t : Timestamp) : Decidable t.valid := by
  unfold Timestamp.valid
  infer_instance

/-! ## Component state and `fetchUserProfile` -/

/-- The four `useState` cells of `GithubSearch`. -/
structure State where
  username : String
  userData : Option ProfileRecord
  loading : Bool
  error : Option String
  deriving DecidableEq, Repr

/-- The state at mount: `useState('')`, `useState(null)`, `useState(false)`,
`useState(null)`. -/
def initialState : State :=
  { username := "", userData := none, loading := false, error := none }

/-- The `onChange` handler: `setUsername(e.target.value)`. -/
def setUsername (text : String) (s : State) : State :=
  { s with username := text }

/-- An invocation of `fetchUserProfile` suspended at `await axios.get(url)`:
the `username` its closure holds and the URL it requested. -/
structure Pending where
  username : String
  url : String
  deriving DecidableEq, Repr

/-- How the promise of `axios.get` settles: fulfilled with `response.data`, or
rejected with an error whose `response` is missing (`none`) or carries an HTTP
status. -/
inductive Outcome where
  | resolved (data : ProfileRecord) : Outcome
  | rejected (response : Option Nat) : Outcome
  deriving DecidableEq, Repr

/-- The request URL built by the template literal on line 34. -/
def requestUrl (username : String) : String :=
  "https://api.github.com/users/" ++ trim username

/-- The message of line 40. -/
def notFoundMessage (username : String) : String :=
  "User \"" ++ trim username ++ "\" not found."

/-- The message of line 24. -/
def validationMessage : String := "Please enter a GitHub username."

/-- The message of line 42. -/
def genericMessage : String := "Error fetching data. Check your network or try again."

/-- Lines 22-35: the part of `fetchUserProfile` that runs before the `await`.
Returns the new state and the request it issued, if any. -/
def fetchUserProfile (s : State) : State × Option Pending :=
  if falsyStr (trim s.username) then
    ({ s with error := some validationMessage, userData := none }, none)
  else
    ({ s with loading := true, error := none, userData := none },
      some { username := s.username, url := requestUrl s.username })

/-- Lines 36-47: the rest of `fetchUserProfile`, run when the awaited promise
settles. `p` is the suspended invocation, `s` the state at that moment. -/
def resume (p : Pending) (o : Outcome) (s : State) : State :=
  let s1 : State :=
    match o with
    | .resolved data => { s with userData := some data }
    | .rejected response =>
      if response == some 404 then
        { s with error := some (notFoundMessage p.username) }
      else
        { s with error := some genericMessage }
  { s1 with loading := false }

/-! ## The component as a transition system -/

/-- The component together with the requests still in flight. -/
structure World where
  state : State
  inflight : List Pending
  deriving DecidableEq, Repr

/-- What can happen to the mounted component. -/
inductive Event where
  | change (text : String) : Event
  | click : Event
  | keyPress (key : String) : Event
  | settle (i : Nat) (o : Outcome) : Event
  deriving DecidableEq, Repr

/-- Run `fetchUserProfile` up to its `await` and record the issued request. -/
def trigger (w : World) : World :=
  let r := fetchUserProfile w.state
  { state := r.1, inflight := w.inflight ++ r.2.toList }

/-- Lines 50-54: `handleKeyPress`. -/
def handleKeyPress (key : String) (w : World) : World :=
  if key == "Enter" then trigger w else w

/-- The button of lines 154-160: `disabled={loading}`, so a click reaches
`fetchUserProfile` only while `loading` is false. -/
def handleClick (w : World) : World :=
  if w.state.loading then w else trigger w

/-- One event. `settle i o` settles the `i`-th request in flight (nothing
happens when there is no such request). -/
def step (w : World) : Event → World
  | .change text => { w with state := setUsername text w.state }
  | .click => handleClick w
  | .keyPress key => handleKeyPress key w
  | .settle i o =>
    match w.inflight.get? i with
    | none => w
    | some p => { state := resume p o w.state, inflight := w.inflight.eraseIdx i }

/-- The world at mount. -/
def initialWorld : World := { state := initialState, inflight := [] }

/-- Run a sequence of events from a world. -/
def run (w : World) (es : List Event) : World := es.foldl step w

/-- The field-presence invariant of the data model: a profile and an error are
never both present, and neither is present while `loading` is true. -/
def fieldPresence (s : State) : Bool :=
  !(s.userData.isSome && s.error.isSome) &&
  (!s.loading || (s.userData.isNone && s.error.isNone))

/-! ## `ProfileCard` -/

/-- What `ProfileCard` puts on the page, element by element. A count is kept as
the number handed to React. -/
structure Card where
  avatarSrc : Field String
  avatarAlt : String
  name : String
  loginLine : String
  joined : String
  repositories : Int
  followers : Int
  following : Int
  location : String
  twitter : String
  company : String
  blog : String
  profileLink : Option String
  deriving DecidableEq, Repr

/-- Lines 56-135: `ProfileCard`. -/
def ProfileCard (host : Host) (user : ProfileRecord) : Card :=
  let name := orElse user.name (orElse user.login "N/A")
  let login := orElse user.login "N/A"
  let joinedDate := formatDate host user.created_at
  let location := orElse user.location "N/A"
  let twitterUsername :=
    match user.twitter_username with
    | .val t => if truthy user.twitter_username then "@" ++ t else "N/A"
    | _ => "N/A"
  let blog := orElse user.blog "N/A"
  let githubProfileUrl := user.html_url
  { avatarSrc := user.avatar_url
    avatarAlt := name ++ "\x27s avatar"
    name := name
    loginLine := "@" ++ login
    joined := "Joined: " ++ joinedDate
    repositories := nullish user.public_repos 0
    followers := nullish user.followers 0
    following := nullish user.following 0
    location := location
    twitter := twitterUsername
    company := orElse user.company "N/A"
    blog := orElse (.val blog) "N/A"
    profileLink :=
      match githubProfileUrl with
      | .val u => if truthy githubProfileUrl then some u else none
      | _ => none }

/-! ## Sample data -/

/-- A record with every property present. -/
def octocat : ProfileRecord :=
  { name := .val "The Octocat"
    login := .val "octocat"
    avatar_url := .val "https://avatars.githubusercontent.com/u/583231?v=4"
    created_at := .val "2011-01-25T18:44:36Z"
    location := .val "San Francisco"
    public_repos := .val 8
    followers := .val 0
    following := .val 9
    twitter_username := .null
    company := .val "@github"
    blog := .val "https://github.blog"
    html_url := .val "https://github.com/octocat" }

/-- A host whose local time is UTC. -/
def utcHost : Host := { localTZA := fun _ => 0, parseOther := fun _ => none }

/-- A host nine hours ahead of UTC. -/
def tokyoHost : Host := { localTZA := fun _ => 32400000, parseOther := fun _ => none }

/-- Apply a sequence of `onChange` events. -/
def edit (texts : List String) (s : State) : State :=
  texts.foldl (fun st text => setUsername text st) s

/-- A state holding a profile and an error, with a whitespace-only query. -/
def blankQueryState : State :=
  { username := "  \t ", userData := some octocat, loading := false,
    error := some "Error fetching data. Check your network or try again." }

/-- A state holding a profile and an error, with the query ` octocat `. -/
def paddedQueryState : State :=
  { username := " octocat ", userData := some octocat, loading := false,
    error := some "Please enter a GitHub username." }

/-- Two submits by the Enter key, the second while the first request is pending;
the first request then succeeds and the second fails with 404. -/
def reentrantRun : List Event :=
  [.change "octocat", .keyPress "Enter", .change "doesnotexist123456", .keyPress "Enter",
   .settle 0 (.resolved octocat), .settle 0 (.rejected (some 404))]

/-- A submit by the Enter key, then, while its request is pending, the query is
emptied and Enter is pressed again. -/
def blankWhileLoadingRun : List Event :=
  [.change "octocat", .keyPress "Enter", .change "", .keyPress "Enter"]

/-- The first four events of `reentrantRun`: both requests are pending. -/
def reentrantSubmits : List Event :=
  [.change "octocat", .keyPress "Enter", .change "doesnotexist123456", .keyPress "Enter"]

/-- Two submits by the Enter key, the second while the first request is pending;
the first request then succeeds and the second fails with status 500. -/
def serverErrorRun : List Event :=
  [.change "octocat", .keyPress "Enter", .change "x", .keyPress "Enter",
   .settle 0 (.resolved octocat), .settle 0 (.rejected (some 500))]

/-- A submit by the Enter key, then, while its request is pending, the query is
emptied and Enter is pressed again; the request then succeeds. -/
def successAfterBlankRun : List Event :=
  [.change "octocat", .keyPress "Enter", .change "", .keyPress "Enter",
   .settle 0 (.resolved octocat)]

/-- A host 7 hours 52 minutes 58 seconds behind UTC. -/
def westHost : Host := { localTZA := fun _ => -28378000, parseOther := fun _ => none }

/-- The sample record with an empty `name`. -/
def emptyNameRecord : ProfileRecord := { octocat with name := .val "" }

/-- The sample record with an empty `blog`. -/
def emptyBlogRecord : ProfileRecord := { octocat with blog := .val "" }

/-! ## Sequential runs and missing properties -/

/-- Run a sequence of events in which Enter is never pressed while `loading` is
true; `none` when the sequence does press it then. -/
def runSequential (w : World) : List Event → Option World
  | [] => some w
  | .keyPress key :: es =>
    if key == "Enter" && w.state.loading then none
    else runSequential (step w (.keyPress key)) es
  | e :: es => runSequential (step w e) es

/-- What holds of the worlds that `runSequential` passes through. -/
def sequentialInv (w : World) : Prop :=
  (w.state.loading = true →
    w.state.userData = none ∧ w.state.error = none ∧ ∃ p, w.inflight = [p]) ∧
  (w.state.loading = false →
    w.inflight = [] ∧ (w.state.userData = none ∨ w.state.error = none))

/-- A string-valued property that is missing, `null` or the empty string. -/
def missing (x : Field String) : Prop := x = .absent ∨ x = .null ∨ x = .val ""

/-- A number-valued property that is missing or `null`. -/
def missingCount (x : Field Int) : Prop := x = .absent ∨ x = .null

/-! ## Lemmas on `trim` -/

theorem trimChars_eq_nil_iff (cs : List Char) :
    trimChars cs = [] ↔ ∀ c ∈ cs, isTrimChar c = true := by
  unfold trimChars
  rw [List.reverse_eq_nil_iff, List.dropWhile_eq_nil_iff]
  constructor
  · intro h
    by_cases hd : cs.dropWhile isTrimChar = []
    · exact List.dropWhile_eq_nil_iff.mp hd
    · have h1 := List.head_dropWhile_not isTrimChar cs hd
      have h2 := h _ (List.mem_reverse.mpr (List.head_mem hd))
      simp [h2] at h1
  · intro h
    rw [List.dropWhile_eq_nil_iff.mpr h]
    simp

/-- The trimmed text is empty exactly for the empty and the whitespace-only
strings. -/
theorem trim_eq_empty_iff (s : String) :
    trim s = "" ↔ ∀ c ∈ s.data, isTrimChar c = true := by
  rw [← trimChars_eq_nil_iff]
  unfold trim
  constructor
  · intro h
    exact congrArg String.data h
  · intro h
    rw [h]

theorem trimChars_pad (a q b : List Char) (ha : ∀ c ∈ a, isTrimChar c = true)
    (hb : ∀ c ∈ b, isTrimChar c = true) :
    trimChars (a ++ q ++ b) = trimChars q := by
  unfold trimChars
  rw [List.append_assoc, List.dropWhile_append_of_pos ha, List.dropWhile_append]
  split
  · rename_i h
    have hq : q.dropWhile isTrimChar = [] := by simpa using h
    rw [List.dropWhile_eq_nil_iff.mpr hb, hq]
  · rw [List.reverse_append, List.dropWhile_append_of_pos]
    intro c hc
    exact hb c (List.mem_reverse.mp hc)

theorem edit_fields (texts : List String) (s : State) :
    (edit texts s).userData = s.userData ∧ (edit texts s).loading = s.loading ∧
      (edit texts s).error = s.error := by
  unfold edit
  induction texts generalizing s with
  | nil => exact ⟨rfl, rfl, rfl⟩
  | cons t ts ih =>
    obtain ⟨h1, h2, h3⟩ := ih (setUsername t s)
    exact ⟨h1, h2, h3⟩

theorem falsyStr_eq_false {s : String} (h : s ≠ "") : falsyStr s = false := by
  unfold falsyStr
  cases hs : s.data with
  | nil => exact absurd (String.ext hs) h
  | cons c cs => rfl

theorem fetchUserProfile_nonblank (s : State) (h : trim s.username ≠ "") :
    fetchUserProfile s =
      ({ s with loading := true, error := none, userData := none },
        some { username := s.username, url := requestUrl s.username }) := by
  unfold fetchUserProfile
  rw [falsyStr_eq_false h]
  rfl

/-! ## The submit handler -/

/-- C1: from every prior state, a submit whose trimmed query is empty issues no
request (none is returned, and the requests in flight stay as they were), sets
the error to the fixed validation message and sets the profile to absent. -/
theorem blank_submit_is_local (s : State) (h : trim s.username = "") :
    (fetchUserProfile s).2 = none ∧
    (∀ inflight, (trigger { state := s, inflight := inflight }).inflight = inflight) ∧
    (fetchUserProfile s).1.error = some "Please enter a GitHub username." ∧
    (fetchUserProfile s).1.userData = none := by
  have hf : fetchUserProfile s =
      ({ s with error := some validationMessage, userData := none }, none) := by
    unfold fetchUserProfile
    rw [h]
    rfl
  refine ⟨by rw [hf], ?_, by rw [hf]; rfl, by rw [hf]⟩
  intro inflight
  unfold trigger
  simp [hf]

theorem blank_submit_is_local_witness :
    trim blankQueryState.username = "" ∧
    (fetchUserProfile blankQueryState).2 = none ∧
    (∀ inflight,
      (trigger { state := blankQueryState, inflight := inflight }).inflight = inflight) ∧
    (fetchUserProfile blankQueryState).1.error = some "Please enter a GitHub username." ∧
    (fetchUserProfile blankQueryState).1.userData = none :=
  ⟨by decide, blank_submit_is_local blankQueryState (by decide)⟩

/-- When nothing but edits of the query happens while the request is pending:
for a query with non-empty trimmed text and whatever the prior state, a request that
fails with HTTP 404 leaves the error `User "<u>" not found.`, where `<u>` is the
trimmed query that was placed in the request URL, and leaves no profile. -/
theorem not_found_names_the_user (s : State) (texts : List String)
    (h : trim s.username ≠ "") :
    ∃ p, (fetchUserProfile s).2 = some p ∧
      p.url = "https://api.github.com/users/" ++ trim s.username ∧
      (resume p (.rejected (some 404)) (edit texts (fetchUserProfile s).1)).error
        = some ("User \"" ++ trim s.username ++ "\" not found.") ∧
      (resume p (.rejected (some 404)) (edit texts (fetchUserProfile s).1)).userData
        = none := by
  rw [fetchUserProfile_nonblank s h]
  refine ⟨_, rfl, rfl, rfl, ?_⟩
  obtain ⟨h1, _, _⟩ :=
    edit_fields texts { s with loading := true, error := none, userData := none }
  simpa [resume] using h1

theorem not_found_names_the_user_witness :
    trim paddedQueryState.username ≠ "" ∧
    ∃ p, (fetchUserProfile paddedQueryState).2 = some p ∧
      p.url = "https://api.github.com/users/" ++ trim paddedQueryState.username ∧
      (resume p (.rejected (some 404))
          (edit ["doesnotexist123456"] (fetchUserProfile paddedQueryState).1)).error
        = some ("User \"" ++ trim paddedQueryState.username ++ "\" not found.") ∧
      (resume p (.rejected (some 404))
          (edit ["doesnotexist123456"] (fetchUserProfile paddedQueryState).1)).userData
        = none :=
  ⟨by decide,
    not_found_names_the_user paddedQueryState ["doesnotexist123456"] (by decide)⟩

/-- When nothing but edits of the query happens while the request is pending:
for a query with non-empty trimmed text, a request that fails without a
response, or with a response whose status is not 404, leaves exactly the generic
message (the same text for every such failure) and leaves no profile. -/
theorem other_failure_is_generic (s : State) (texts : List String)
    (response : Option Nat) (h : trim s.username ≠ "") (hr : response ≠ some 404) :
    ∃ p, (fetchUserProfile s).2 = some p ∧
      (resume p (.rejected response) (edit texts (fetchUserProfile s).1)).error
        = some "Error fetching data. Check your network or try again." ∧
      (resume p (.rejected response) (edit texts (fetchUserProfile s).1)).userData
        = none := by
  rw [fetchUserProfile_nonblank s h]
  refine ⟨_, rfl, ?_, ?_⟩
  · simp [resume, hr, genericMessage]
  · obtain ⟨h1, _, _⟩ :=
      edit_fields texts { s with loading := true, error := none, userData := none }
    simp only [resume]
    split_ifs <;> simpa using h1

theorem other_failure_is_generic_witness :
    trim paddedQueryState.username ≠ "" ∧ (some 500 : Option Nat) ≠ some 404 ∧
    ∃ p, (fetchUserProfile paddedQueryState).2 = some p ∧
      (resume p (.rejected (some 500)) (edit [] (fetchUserProfile paddedQueryState).1)).error
        = some "Error fetching data. Check your network or try again." ∧
      (resume p (.rejected (some 500))
          (edit [] (fetchUserProfile paddedQueryState).1)).userData = none :=
  ⟨by decide, by decide,
    other_failure_is_generic paddedQueryState [] (some 500) (by decide) (by decide)⟩

/-- When nothing but edits of the query happens while the request is pending:
for a query with non-empty trimmed text and every prior state, also one
that holds an error, a request that succeeds with record `r` leaves the profile
equal to `r` and no error. -/
theorem success_stores_the_record (s : State) (texts : List String) (r : ProfileRecord)
    (h : trim s.username ≠ "") :
    ∃ p, (fetchUserProfile s).2 = some p ∧
      (resume p (.resolved r) (edit texts (fetchUserProfile s).1)).userData = some r ∧
      (resume p (.resolved r) (edit texts (fetchUserProfile s).1)).error = none := by
  rw [fetchUserProfile_nonblank s h]
  refine ⟨_, rfl, rfl, ?_⟩
  obtain ⟨_, _, h3⟩ :=
    edit_fields texts { s with loading := true, error := none, userData := none }
  simpa [resume] using h3

theorem success_stores_the_record_witness :
    trim paddedQueryState.username ≠ "" ∧
    ∃ p, (fetchUserProfile paddedQueryState).2 = some p ∧
      (resume p (.resolved octocat)
          (edit ["x"] (fetchUserProfile paddedQueryState).1)).userData = some octocat ∧
      (resume p (.resolved octocat)
          (edit ["x"] (fetchUserProfile paddedQueryState).1)).error = none :=
  ⟨by decide, success_stores_the_record paddedQueryState ["x"] octocat (by decide)⟩

/-- C6: a submit with a non-blank query issues a request, and when that request
settles, with any outcome and in whatever state the component is by then,
`loading` is false afterwards. -/
theorem settled_request_ends_loading (s : State) (h : trim s.username ≠ "") :
    ∃ p, (fetchUserProfile s).2 = some p ∧
      ∀ (o : Outcome) (later : State), (resume p o later).loading = false := by
  rw [fetchUserProfile_nonblank s h]
  exact ⟨_, rfl, fun _ _ => rfl⟩

theorem settled_request_ends_loading_witness :
    trim paddedQueryState.username ≠ "" ∧
    ∃ p, (fetchUserProfile paddedQueryState).2 = some p ∧
      ∀ (o : Outcome) (later : State), (resume p o later).loading = false :=
  ⟨by decide, settled_request_ends_loading paddedQueryState (by decide)⟩

/-- C7: for a query with non-empty trimmed text, submit sets `loading`, clears
the error and the profile, and issues exactly one request, whose URL is
`https://api.github.com/users/` followed by the trimmed query; padding the query
with whitespace on either side leaves the requested URL unchanged. -/
theorem submit_issues_one_request (s : State) (h : trim s.username ≠ "") :
    (fetchUserProfile s).1.loading = true ∧
    (fetchUserProfile s).1.error = none ∧
    (fetchUserProfile s).1.userData = none ∧
    (fetchUserProfile s).2 = some
      { username := s.username, url := "https://api.github.com/users/" ++ trim s.username } ∧
    (∀ inflight, (trigger { state := s, inflight := inflight }).inflight = inflight ++
      [{ username := s.username, url := "https://api.github.com/users/" ++ trim s.username }]) ∧
    (∀ a b : List Char, (∀ c ∈ a, isTrimChar c = true) → (∀ c ∈ b, isTrimChar c = true) →
      (fetchUserProfile (setUsername ⟨a ++ s.username.data ++ b⟩ s)).2.map Pending.url
        = (fetchUserProfile s).2.map Pending.url) := by
  have hf := fetchUserProfile_nonblank s h
  refine ⟨by rw [hf], by rw [hf], by rw [hf], by rw [hf]; rfl, ?_, ?_⟩
  · intro inflight
    unfold trigger
    simp [hf, requestUrl]
  · intro a b ha hb
    have ht : trim (setUsername ⟨a ++ s.username.data ++ b⟩ s).username = trim s.username := by
      show (⟨trimChars (a ++ s.username.data ++ b)⟩ : String) = ⟨trimChars s.username.data⟩
      rw [trimChars_pad a _ b ha hb]
    rw [fetchUserProfile_nonblank _ (by rw [ht]; exact h), hf]
    simp only [Option.map, requestUrl, ht]

theorem submit_issues_one_request_witness :
    trim paddedQueryState.username ≠ "" ∧
    (fetchUserProfile paddedQueryState).1.loading = true ∧
    (fetchUserProfile paddedQueryState).1.error = none ∧
    (fetchUserProfile paddedQueryState).1.userData = none ∧
    (fetchUserProfile paddedQueryState).2 = some
      { username := paddedQueryState.username,
        url := "https://api.github.com/users/" ++ trim paddedQueryState.username } ∧
    (∀ inflight,
      (trigger { state := paddedQueryState, inflight := inflight }).inflight = inflight ++
      [{ username := paddedQueryState.username,
         url := "https://api.github.com/users/" ++ trim paddedQueryState.username }]) ∧
    (∀ a b : List Char, (∀ c ∈ a, isTrimChar c = true) → (∀ c ∈ b, isTrimChar c = true) →
      (fetchUserProfile
          (setUsername ⟨a ++ paddedQueryState.username.data ++ b⟩ paddedQueryState)).2.map
          Pending.url
        = (fetchUserProfile paddedQueryState).2.map Pending.url) :=
  ⟨by decide, submit_issues_one_request paddedQueryState (by decide)⟩

/-! ## Re-entrant submits -/

theorem sequentialInv_trigger (w : World) (h : sequentialInv w)
    (hl : w.state.loading = false) : sequentialInv (trigger w) := by
  obtain ⟨hin, _⟩ := h.2 hl
  unfold trigger fetchUserProfile
  by_cases hb : falsyStr (trim w.state.username) = true
  · simp [hb, sequentialInv, hin, hl]
  · simp [hb, sequentialInv, hin]

theorem sequentialInv_step (w : World) (e : Event) (h : sequentialInv w)
    (he : ∀ key, e = .keyPress key → (key == "Enter" && w.state.loading) = false) :
    sequentialInv (step w e) := by
  cases e with
  | change text => exact h
  | click =>
    show sequentialInv (handleClick w)
    unfold handleClick
    cases hl : w.state.loading with
    | true => simpa using h
    | false => simpa using sequentialInv_trigger w h hl
  | keyPress key =>
    show sequentialInv (handleKeyPress key w)
    unfold handleKeyPress
    by_cases hk : (key == "Enter") = true
    · have hl : w.state.loading = false := by simpa [hk] using he key rfl
      simpa [hk] using sequentialInv_trigger w h hl
    · simpa [hk] using h
  | settle i o =>
    show sequentialInv (match w.inflight.get? i with
      | none => w
      | some p => { state := resume p o w.state, inflight := w.inflight.eraseIdx i })
    cases hl : w.state.loading with
    | false =>
      obtain ⟨hin, _⟩ := h.2 hl
      simpa [hin] using h
    | true =>
      obtain ⟨hu, herr, p, hp⟩ := h.1 hl
      cases i with
      | succ j => simpa [hp] using h
      | zero =>
        cases o with
        | resolved data => simp [hp, sequentialInv, resume, herr]
        | rejected response =>
          by_cases hr : response = some 404
          · simp [hp, sequentialInv, resume, hu, hr]
          · simp [hp, sequentialInv, resume, hu, hr]

theorem sequentialInv_run (es : List Event) (w w2 : World) (h : sequentialInv w)
    (hr : runSequential w es = some w2) : sequentialInv w2 := by
  induction es generalizing w with
  | nil =>
    simp only [runSequential, Option.some.injEq] at hr
    exact hr ▸ h
  | cons e es ih =>
    cases e with
    | keyPress key =>
      simp only [runSequential] at hr
      by_cases hk : (key == "Enter" && w.state.loading) = true
      · simp [hk] at hr
      · have hk2 : (key == "Enter" && w.state.loading) = false := by simpa using hk
        rw [if_neg (by simp [hk2])] at hr
        refine ih _ (sequentialInv_step w _ h ?_) hr
        intro key2 h2
        cases h2
        exact hk2
    | change text =>
      exact ih _ (sequentialInv_step w _ h (fun _ h2 => by cases h2)) hr
    | click =>
      exact ih _ (sequentialInv_step w _ h (fun _ h2 => by cases h2)) hr
    | settle i o =>
      exact ih _ (sequentialInv_step w _ h (fun _ h2 => by cases h2)) hr

/-- As long as Enter is not pressed while a request is pending, every state
reached from the initial one satisfies the field-presence invariant. -/
theorem fieldPresence_of_sequential (es : List Event) (w : World)
    (hr : runSequential initialWorld es = some w) : fieldPresence w.state = true := by
  have h0 : sequentialInv initialWorld := by
    simp [sequentialInv, initialWorld, initialState]
  have h := sequentialInv_run es initialWorld w h0 hr
  unfold fieldPresence
  cases hl : w.state.loading with
  | true =>
    obtain ⟨hu, herr, _⟩ := h.1 hl
    simp [hu, herr]
  | false =>
    obtain ⟨_, hd⟩ := h.2 hl
    rcases hd with hd | hd <;> simp [hd]

/-- C2: the code breaks the claim when Enter is pressed while a request is
pending. The 404 branch sets the error and leaves the profile as it finds it;
in `reentrantRun` the submit of `doesnotexist123456` issues its request to
`https://api.github.com/users/doesnotexist123456`, that request fails with 404,
the error is `User "doesnotexist123456" not found.`, and the profile stored by
the earlier request is still there. -/
theorem not_found_beside_earlier_profile :
    (∀ (p : Pending) (later : State),
      (resume p (.rejected (some 404)) later).userData = later.userData) ∧
    (run initialWorld reentrantSubmits).inflight.map Pending.url
      = ["https://api.github.com/users/octocat",
         "https://api.github.com/users/doesnotexist123456"] ∧
    (run initialWorld reentrantSubmits).state.userData = none ∧
    run initialWorld reentrantRun
      = run (run initialWorld reentrantSubmits)
          [.settle 0 (.resolved octocat), .settle 0 (.rejected (some 404))] ∧
    (run initialWorld reentrantRun).state.error
      = some "User \"doesnotexist123456\" not found." ∧
    (run initialWorld reentrantRun).state.userData = some octocat := by
  refine ⟨fun _ _ => rfl, ?_, ?_, ?_, ?_, ?_⟩ <;> decide

/-- C3: the code breaks the claim when Enter is pressed while a request is
pending. The branch for the other failures sets the generic error and leaves
the profile as it finds it; in `serverErrorRun` the request of the second submit
fails with status 500, the error is the generic message, and the profile stored
by the earlier request is still there. -/
theorem generic_error_beside_earlier_profile :
    (∀ (p : Pending) (response : Option Nat) (later : State),
      (resume p (.rejected response) later).userData = later.userData) ∧
    (run initialWorld serverErrorRun).state.error
      = some "Error fetching data. Check your network or try again." ∧
    (run initialWorld serverErrorRun).state.userData = some octocat ∧
    (run initialWorld serverErrorRun).inflight = [] := by
  refine ⟨fun p response later => ?_, by decide, by decide, by decide⟩
  unfold resume
  by_cases h : (response == some 404) = true <;> simp [h]

/-- C4: the code breaks the claim when Enter is pressed while a request is
pending. The success branch stores the record and leaves the error as it finds
it; in `successAfterBlankRun` the request succeeds with the sample record after
a blank submit has set the validation message, and the state then holds the
record and that message. -/
theorem success_beside_validation_error :
    (∀ (p : Pending) (r : ProfileRecord) (later : State),
      (resume p (.resolved r) later).error = later.error) ∧
    (run initialWorld successAfterBlankRun).state.userData = some octocat ∧
    (run initialWorld successAfterBlankRun).state.error
      = some "Please enter a GitHub username." ∧
    (run initialWorld successAfterBlankRun).inflight = [] := by
  refine ⟨fun _ _ _ => rfl, by decide, by decide, by decide⟩

/-- C5: the field-presence invariant fails in a reachable state. After
`reentrantRun` the profile of the first request and the error of the second are
both present; after `blankWhileLoadingRun` an error is present while `loading`
is true. -/
theorem fieldPresence_fails_when_reentrant :
    (run initialWorld reentrantRun).state.userData = some octocat ∧
    (run initialWorld reentrantRun).state.error
      = some "User \"doesnotexist123456\" not found." ∧
    fieldPresence (run initialWorld reentrantRun).state = false ∧
    (run initialWorld blankWhileLoadingRun).state.loading = true ∧
    (run initialWorld blankWhileLoadingRun).state.error
      = some "Please enter a GitHub username." ∧
    fieldPresence (run initialWorld blankWhileLoadingRun).state = false := by
  decide

/-! ## The rendered card -/

theorem truthy_val (v : String) (hv : v ≠ "") : truthy (.val v) = true := by
  obtain ⟨d⟩ := v
  cases d with
  | nil => exact absurd rfl hv
  | cons c cs => rfl

theorem orElse_val (x : Field String) (v fallback : String) (hx : x = .val v)
    (hv : v ≠ "") : orElse x fallback = v := by
  subst hx
  simp [orElse, truthy_val v hv]

theorem orElse_missing (x : Field String) (fallback : String) (hx : missing x) :
    orElse x fallback = fallback := by
  rcases hx with h | h | h <;> subst h <;> rfl

/-- C8, as stated, fails: a record whose `name` is present as the empty string
and whose `login` is `octocat` is shown under the name `octocat`. -/
theorem display_name_present_but_empty :
    emptyNameRecord.name = .val "" ∧
    (ProfileCard utcHost emptyNameRecord).name = "octocat" ∧
    ¬ (∀ (host : Host) (user : ProfileRecord) (n : String),
        user.name = .val n → (ProfileCard host user).name = n) := by
  refine ⟨rfl, by decide, ?_⟩
  intro h
  exact absurd (h utcHost emptyNameRecord "" rfl) (by decide)

/-- C8, amended: the display name is the `name` property when it is present and
not the empty string, otherwise the `login` property when that is present and
not the empty string, otherwise `N/A`. -/
theorem display_name_fallback (host : Host) (user : ProfileRecord) :
    (∀ n, user.name = .val n → n ≠ "" → (ProfileCard host user).name = n) ∧
    (missing user.name → ∀ l, user.login = .val l → l ≠ "" →
      (ProfileCard host user).name = l) ∧
    (missing user.name → missing user.login → (ProfileCard host user).name = "N/A") := by
  refine ⟨?_, ?_, ?_⟩
  · intro n hn hne
    exact orElse_val _ n _ hn hne
  · intro hm l hl hne
    show orElse user.name (orElse user.login "N/A") = l
    rw [orElse_missing _ _ hm]
    exact orElse_val _ l _ hl hne
  · intro hm hml
    show orElse user.name (orElse user.login "N/A") = "N/A"
    rw [orElse_missing _ _ hm, orElse_missing _ _ hml]

/-- C10, as stated, fails: a record whose `blog` is present as the empty string
is shown with the blog `N/A`. -/
theorem blog_present_but_empty :
    emptyBlogRecord.blog = .val "" ∧
    (ProfileCard utcHost emptyBlogRecord).blog = "N/A" ∧
    ¬ (∀ (host : Host) (user : ProfileRecord) (v : String),
        user.blog = .val v → (ProfileCard host user).blog = v) := by
  refine ⟨rfl, by decide, ?_⟩
  intro h
  exact absurd (h utcHost emptyBlogRecord "" rfl) (by decide)

/-- C10, amended: `location`, `company` and `blog` are shown as they are when
present and not the empty string, and as `N/A` when missing, `null` or empty;
the social handle is `@` followed by `twitter_username` in the first case and
`N/A` in the second; the login line is `@` followed by `login`, or `@N/A`; and
each count is shown unchanged when present (0 included) and as 0 when missing
or `null`. -/
theorem card_fallbacks (host : Host) (user : ProfileRecord) :
    ((∀ v, user.location = .val v → v ≠ "" → (ProfileCard host user).location = v) ∧
      (missing user.location → (ProfileCard host user).location = "N/A")) ∧
    ((∀ v, user.company = .val v → v ≠ "" → (ProfileCard host user).company = v) ∧
      (missing user.company → (ProfileCard host user).company = "N/A")) ∧
    ((∀ v, user.blog = .val v → v ≠ "" → (ProfileCard host user).blog = v) ∧
      (missing user.blog → (ProfileCard host user).blog = "N/A")) ∧
    ((∀ v, user.twitter_username = .val v → v ≠ "" →
        (ProfileCard host user).twitter = "@" ++ v) ∧
      (missing user.twitter_username → (ProfileCard host user).twitter = "N/A")) ∧
    ((∀ v, user.login = .val v → v ≠ "" → (ProfileCard host user).loginLine = "@" ++ v) ∧
      (missing user.login → (ProfileCard host user).loginLine = "@N/A")) ∧
    ((∀ n, user.public_repos = .val n → (ProfileCard host user).repositories = n) ∧
      (missingCount user.public_repos → (ProfileCard host user).repositories = 0)) ∧
    ((∀ n, user.followers = .val n → (ProfileCard host user).followers = n) ∧
      (missingCount user.followers → (ProfileCard host user).followers = 0)) ∧
    ((∀ n, user.following = .val n → (ProfileCard host user).following = n) ∧
      (missingCount user.following → (ProfileCard host user).following = 0)) := by
  have hcount : ∀ x : Field Int, (∀ n, x = .val n → nullish x 0 = n) ∧
      (missingCount x → nullish x 0 = 0) := by
    intro x
    refine ⟨fun n hn => by subst hn; rfl, fun hm => ?_⟩
    rcases hm with h | h <;> subst h <;> rfl
  refine ⟨⟨fun v hv hne => orElse_val _ v _ hv hne, fun hm => orElse_missing _ _ hm⟩,
    ⟨fun v hv hne => orElse_val _ v _ hv hne, fun hm => orElse_missing _ _ hm⟩,
    ⟨?_, ?_⟩, ⟨?_, ?_⟩, ⟨?_, ?_⟩, hcount _, hcount _, hcount _⟩
  · intro v hv hne
    show orElse (.val (orElse user.blog "N/A")) "N/A" = v
    rw [orElse_val _ v _ hv hne]
    exact orElse_val _ v _ rfl hne
  · intro hm
    show orElse (.val (orElse user.blog "N/A")) "N/A" = "N/A"
    rw [orElse_missing _ _ hm]
    rfl
  · intro v hv hne
    simp [ProfileCard, hv, truthy_val v hne]
  · intro hm
    rcases hm with h | h | h <;> simp [ProfileCard, h, truthy]
  · intro v hv hne
    show "@" ++ orElse user.login "N/A" = "@" ++ v
    rw [orElse_val _ v _ hv hne]
  · intro hm
    show "@" ++ orElse user.login "N/A" = "@N/A"
    rw [orElse_missing _ _ hm]
    rfl

/-! ## The calendar -/

theorem DayFromYear_succ (y : Int) : DayFromYear (y + 1) = DayFromYear y + DaysInYear y := by
  unfold DayFromYear DaysInYear
  split_ifs <;> omega

theorem DaysInYear_pos (y : Int) : 0 < DaysInYear y := by
  unfold DaysInYear
  split_ifs <;> omega

theorem DayFromYear_mono {y y2 : Int} (h : y ≤ y2) : DayFromYear y ≤ DayFromYear y2 := by
  obtain ⟨n, rfl⟩ := Int.le.dest h
  induction n with
  | zero => simp
  | succ n ih =>
    have hs : y + ((n + 1 : Nat) : Int) = (y + (n : Int)) + 1 := by push_cast; ring
    rw [hs, DayFromYear_succ]
    have h1 := DaysInYear_pos (y + (n : Int))
    have h2 := ih (by omega)
    omega

/-- A day lies in one year only. -/
theorem DayFromYear_unique (day y y2 : Int)
    (h1 : DayFromYear y ≤ day) (h2 : day < DayFromYear (y + 1))
    (h3 : DayFromYear y2 ≤ day) (h4 : day < DayFromYear (y2 + 1)) : y = y2 := by
  rcases lt_trichotomy y y2 with h | h | h
  · have := DayFromYear_mono (show y + 1 ≤ y2 by omega)
    omega
  · exact h
  · have := DayFromYear_mono (show y2 + 1 ≤ y by omega)
    omega

theorem DayFromYear_cycles (a c q k : Int) (hc0 : 0 ≤ c) (hc1 : c ≤ 3) (hq0 : 0 ≤ q)
    (hq1 : q ≤ 24) (hk0 : 0 ≤ k) (hk1 : k ≤ 3) :
    DayFromYear (1601 + 400 * a + 100 * c + 4 * q + k)
      = 146097 * a + 36524 * c + 1461 * q + 365 * k - 134774 := by
  unfold DayFromYear
  interval_cases c <;> interval_cases k <;> omega

/-- The year computed by `YearFromDay` is the year that contains the day. -/
theorem YearFromDay_spec (day : Int) :
    DayFromYear (YearFromDay day) ≤ day ∧ day < DayFromYear (YearFromDay day + 1) := by
  rw [DayFromYear_succ]
  unfold YearFromDay
  simp only []
  generalize hz : day + 134774 = z
  generalize ha : z / 146097 = a
  generalize hr : z % 146097 = r
  have hr0 : 0 ≤ r := by omega
  have hr1 : r < 146097 := by omega
  generalize hc : min (r / 36524) 3 = c
  have hc0 : 0 ≤ c := by omega
  have hc1 : c ≤ 3 := by omega
  generalize hr1 : r - 36524 * c = r1
  have h10 : 0 ≤ r1 := by omega
  have h11 : r1 ≤ 36524 := by omega
  have h12 : c < 3 → r1 < 36524 := by omega
  generalize hq : r1 / 1461 = q
  generalize hr2 : r1 % 1461 = r2
  have hq0 : 0 ≤ q := by omega
  have hq1 : q ≤ 24 := by omega
  generalize hk : min (r2 / 365) 3 = k
  have hk0 : 0 ≤ k := by omega
  have hk1 : k ≤ 3 := by omega
  rw [DayFromYear_cycles a c q k hc0 hc1 hq0 hq1 hk0 hk1]
  unfold DaysInYear
  interval_cases c <;> interval_cases k <;> split_ifs <;> omega

theorem Day_MakeDate (day time off : Int) (h0 : 0 ≤ time + off) (h1 : time + off < msPerDay) :
    Day (MakeDate day time + off) = day := by
  unfold Day MakeDate msPerDay at *
  omega

theorem InLeapYear_cases (y : Int) :
    (InLeapYear y = 0 ∧ DaysInYear y = 365) ∨ (InLeapYear y = 1 ∧ DaysInYear y = 366) := by
  unfold InLeapYear
  by_cases h : DaysInYear y = 366
  · simp [h]
  · have : DaysInYear y = 365 := by
      unfold DaysInYear at h ⊢
      split_ifs at h ⊢ <;> simp_all
    simp [this]

set_option maxHeartbeats 1000000 in
/-- The calendar date of an instant that falls on day `MakeDay y (m - 1) d`. -/
theorem civil_of_day (y : Int) (m d : Nat) (hm1 : 1 ≤ m) (hm2 : m ≤ 12) (hd1 : 1 ≤ d)
    (hd2 : d ≤ daysInMonth y m) (t : Int) (ht : Day t = MakeDay y ((m : Int) - 1) d) :
    YearFromTime t = y ∧ MonthFromTime t + 1 = m ∧ DateFromTime t = d := by
  have hleap := InLeapYear_cases y
  have hmk : Day t = DayFromYear y + monthStart ((m : Int) - 1) (InLeapYear y) + d - 1 := by
    rw [ht]
    unfold MakeDay
    have h1 : ((m : Int) - 1) / 12 = 0 := by omega
    have h2 : ((m : Int) - 1) % 12 = (m : Int) - 1 := by omega
    simp only [h1, h2, add_zero]
  have hY : YearFromTime t = y := by
    unfold YearFromTime
    have hs := YearFromDay_spec (Day t)
    refine DayFromYear_unique (Day t) _ _ hs.1 hs.2 ?_ ?_
    · rw [hmk]
      unfold daysInMonth at hd2
      interval_cases m <;> simp [monthStart] at hd2 ⊢ <;> omega
    · rw [hmk, DayFromYear_succ]
      unfold daysInMonth at hd2
      interval_cases m <;> simp [monthStart] at hd2 ⊢ <;>
        first
          | omega
          | (split_ifs at hd2 <;> omega)
  have hW : DayWithinYear t = monthStart ((m : Int) - 1) (InLeapYear y) + d - 1 := by
    unfold DayWithinYear
    rw [hY, hmk]
    omega
  have hM : MonthFromTime t = (m : Int) - 1 := by
    unfold MonthFromTime
    simp only [hW, hY]
    unfold daysInMonth at hd2
    rcases hleap with ⟨hL, hD⟩ | ⟨hL, hD⟩ <;> interval_cases m <;>
      simp [monthStart, hL, hD] at hd2 ⊢ <;> omega
  refine ⟨hY, by omega, ?_⟩
  unfold DateFromTime
  rw [hM, hY, hW]
  omega

theorem parseTimestamp_nonempty (s : String) (t : Timestamp)
    (h : parseTimestamp s = some t) : falsyStr s = false := by
  unfold falsyStr
  cases hs : s.data with
  | nil => simp [parseTimestamp, hs] at h
  | cons c cs => rfl

theorem daysInMonth_le (y : Int) (m : Nat) : daysInMonth y m ≤ 31 := by
  unfold daysInMonth
  split_ifs <;> omega

theorem legalElements_of_valid (t : Timestamp) (hv : t.valid) : legalElements t = true := by
  obtain ⟨h1, h2, h3, h4, h5, h6, h7⟩ := hv
  have := daysInMonth_le t.year t.month
  unfold legalElements
  simp only [decide_eq_true_eq]
  omega

theorem toString_natCast (n : Nat) : toString (n : Int) = toString n := rfl

/-- C9: the code breaks the claim, and the comment above `formatDate`, on a
host that is not in UTC. The date it writes is the local calendar date of the
instant: on a host nine hours ahead of UTC the timestamp `2011-01-25T18:44:36Z`
is shown as `1/26/2011`, not as `1/25/2011`. -/
theorem formatDate_shows_local_day :
    parseTimestamp "2011-01-25T18:44:36Z"
      = some { year := 2011, month := 1, day := 25, hour := 18, minute := 44, second := 36 } ∧
    formatDate tokyoHost (.val "2011-01-25T18:44:36Z") = "1/26/2011" ∧
    formatDate tokyoHost (.val "2011-01-25T18:44:36Z") ≠ "1/25/2011" := by
  decide

/-- Where the local day is the day of the timestamp: for a timestamp
`YYYY-MM-DDTHH:MM:SSZ` that names a calendar date of the years 0001 to 9999
and a time of day up to 23:59:59, `formatDate`
returns `M/D/YYYY`, the month, day and year of the timestamp in decimal without
leading zeros, whenever the local-time offset of the host does not carry that
instant into another calendar day (on a host in UTC it never does); and
`formatDate` returns `N/A` when the timestamp is missing or `null`. -/
theorem formatDate_same_day (host : Host) (s : String) (t : Timestamp)
    (hp : parseTimestamp s = some t) (hv : t.valid) (hy : 1 ≤ t.year)
    (h0 : 0 ≤ MakeTime t.hour t.minute t.second + host.localTZA (timeValue t))
    (h1 : MakeTime t.hour t.minute t.second + host.localTZA (timeValue t) < msPerDay) :
    formatDate host (.val s)
      = toString t.month ++ "/" ++ toString t.day ++ "/" ++ toString t.year ∧
    formatDate host .absent = "N/A" ∧ formatDate host .null = "N/A" := by
  refine ⟨?_, rfl, rfl⟩
  have hday : Day (timeValue t + host.localTZA (timeValue t))
      = MakeDay t.year ((t.month : Int) - 1) t.day :=
    Day_MakeDate _ _ _ h0 h1
  obtain ⟨hm1, hm2, hd1, hd2, _, _, _⟩ := hv
  obtain ⟨hY, hM, hD⟩ := civil_of_day t.year t.month t.day hm1 hm2 hd1 hd2 _ hday
  have hl : legalElements t = true :=
    legalElements_of_valid t ⟨hm1, hm2, hd1, hd2, ‹_›, ‹_›, ‹_›⟩
  have hn : newDate host s = some (timeValue t) := by
    unfold newDate
    rw [hp]
    simp only [hl, if_true]
  unfold formatDate
  have he : eraYear (t.year : Int) = (t.year : Int) := by
    unfold eraYear
    rw [if_neg (by omega)]
  simp only [parseTimestamp_nonempty s t hp, hn, toLocaleDateString, Bool.false_eq_true,
    if_false, hY, hM, hD, he, toString_natCast]

/-- Years before year 1 are written as years of the era: year 0000 as `1`, on a
host in UTC and on a host behind UTC that is still in year 0 at the start of
year 0001. -/
theorem formatDate_era_year :
    formatDate utcHost (.val "0000-01-01T00:00:00Z") = "1/1/1" ∧
    formatDate westHost (.val "0001-01-01T00:00:00Z") = "12/31/1" := by
  decide

theorem formatDate_same_day_witness :
    parseTimestamp "2011-01-25T18:44:36Z"
      = some { year := 2011, month := 1, day := 25, hour := 18, minute := 44, second := 36 } ∧
    formatDate utcHost (.val "2011-01-25T18:44:36Z")
      = toString 1 ++ "/" ++ toString 25 ++ "/" ++ toString 2011 ∧
    formatDate utcHost .absent = "N/A" ∧ formatDate utcHost .null = "N/A" :=
  ⟨by decide,
    formatDate_same_day utcHost "2011-01-25T18:44:36Z"
      { year := 2011, month := 1, day := 25, hour := 18, minute := 44, second := 36 }
      (by decide) (by decide) (by decide) (by decide) (by decide)⟩

end GithubSearch
